import Mathlib

set_option maxRecDepth 8000

/-!
Shallow embedding of the colorsense repository (TypeScript/Next.js).

Embedded source files:
* `src/lib/googleai.ts` — `validateColorQuery`, `getColorFromText`,
  `getMultipleColorsFromText`, `getColorSuggestions`.
* `src/app/page.tsx` (current edition, with the structured parser) —
  `parseStructuredColorInput`, `parseMultipleColors`.
* `src/app/api/color/route.ts` (current edition, with the suggestion
  branch) — `POST`.

Modelling conventions:
* JavaScript runtime values (results of `JSON.parse`, request-body fields)
  are modelled by the inductive `Json`, with an extra constructor `undefined`
  for the value of an absent property (JS `undefined`).  Numbers are
  modelled as integers; no claim depends on fractional values.
* The external generation service (`ai.models.generateContent`) is a
  black box: each call either throws (`GenResult.err`) or produces a
  response whose `.text` is an optional string (`GenResult.ok`).  One
  invocation of a resolver makes one validation call and one main call,
  so the oracle is a function from the input string to a `GenBehavior`
  pair.
* `JSON.parse` is platform code, modelled by an arbitrary function
  `jp : String → Option Json` (`none` = the parse throws).
* Thrown JS exceptions are modelled by `Except String`, carrying the
  message of the `Error`.
-/

namespace ColorSense

/-- A JavaScript value as seen by this code: everything `JSON.parse` can
produce, plus `undefined` for reads of missing properties. -/
inductive Json where
  | undefined : Json
  | null : Json
  | bool : Bool → Json
  | num : Int → Json
  | str : String → Json
  | arr : List Json → Json
  | obj : List (String × Json) → Json
deriving Repr

/-- JS truthiness of a value (used by `if (x)`, `!x`, `x || y`). -/
def jsTruthy : Json → Bool
  | .undefined => false
  | .null => false
  | .bool b => b
  | .num n => n != 0
  | .str s => s != ""
  | .arr _ => true
  | .obj _ => true

/-- Property read `v[k]` on an object; `undefined` when the key is missing or
the value is not an object.  JS keeps the last of duplicate keys, hence
the search from the end.  (A property read on `null`/`undefined` actually
throws a TypeError; the call sites where that matters model the throw
explicitly.) -/
def Json.get : Json → String → Json
  | .obj fields, k =>
    match fields.reverse.find? (fun p => p.1 == k) with
    | some p => p.2
    | none => .undefined
  | _, _ => .undefined

/-- Whether a value is `null` or `undefined` (property access throws). -/
def jsNullish : Json → Bool
  | .null => true
  | .undefined => true
  | _ => false

/-- Whether a value is an object carrying the key as an own property —
the condition under which an object spread `{ ... , ...v }` copies that
key (spreading a non-object contributes no named keys: strings and
arrays spread only index keys, primitives nothing). -/
def Json.hasKey : Json → String → Bool
  | .obj fields, k => fields.any (fun p => p.1 == k)
  | _, _ => false

/-- JS string coercion `String(v)` with explicit recursion fuel; an array
is `join(",")` of its elements, where `null` and `undefined` elements
become "".  The fuel only bounds the nesting depth of arrays. -/
def jsStringF : Nat → Json → String
  | _, .undefined => "undefined"
  | _, .null => "null"
  | _, .bool true => "true"
  | _, .bool false => "false"
  | _, .num n => toString n
  | _, .str s => s
  | _, .obj _ => "[object Object]"
  | 0, .arr _ => ""
  | n + 1, .arr xs =>
    String.intercalate ","
      (xs.map fun j =>
        match j with
        | .null => ""
        | .undefined => ""
        | j => jsStringF n j)

/-- JS string coercion `String(v)`, as used by template literals and by
`new Error(v).message`.  The fuel bounds only the nesting depth of
arrays; a million levels is far beyond anything `JSON.parse` produces
(real engines throw on such nesting long before that). -/
def jsString (j : Json) : String := jsStringF 1000000 j

/-- JS `String.prototype.trim`, over the whitespace characters space, tab,
carriage return and newline. -/
def trimChars (cs : List Char) : List Char :=
  ((cs.dropWhile Char.isWhitespace).reverse.dropWhile Char.isWhitespace).reverse

/-- String wrapper for `trimChars`. -/
def jsTrim (s : String) : String := (trimChars s.toList).asString

/-- Split at every character satisfying the predicate, keeping empty
segments — the behaviour of JS `s.split(sep)` for a one-character-class
separator. -/
def splitOnPred (p : Char → Bool) : List Char → List (List Char)
  | [] => [[]]
  | x :: xs =>
    if p x then [] :: splitOnPred p xs
    else
      match splitOnPred p xs with
      | [] => [[x]]
      | h :: t => (x :: h) :: t

/-- Split on a single character, keeping empty segments. -/
def splitOnChar (c : Char) : List Char → List (List Char) :=
  splitOnPred (· == c)

/-- JS `s.split(/,|and/)`: scanning left to right, a separator is either a
comma or the literal substring "and". -/
def splitCommaAndChars : List Char → List (List Char)
  | [] => [[]]
  | ',' :: xs => [] :: splitCommaAndChars xs
  | 'a' :: 'n' :: 'd' :: xs => [] :: splitCommaAndChars xs
  | x :: xs =>
    match splitCommaAndChars xs with
    | [] => [[x]]
    | h :: t => (x :: h) :: t

/-- Whether a character is one of the bullet markers in the character
class `[•*-]`. -/
def isBulletChar (c : Char) : Bool :=
  c == '•' || c == '*' || c == '-'

/-- JS `s.split(/[•*-]\s*/)`: a separator is a bullet marker together with
the whitespace that follows it (greedy).  Since whitespace is never a
bullet marker, the greedy `\s*` consumes exactly the leading whitespace of
the segment that follows the marker, so this equals splitting on the
marker alone and then stripping leading whitespace from every segment
after a marker. -/
def splitBulletsChars (cs : List Char) : List (List Char) :=
  match splitOnPred isBulletChar cs with
  | [] => []
  | s :: rest => s :: rest.map (List.dropWhile Char.isWhitespace)

/-- JS `s.split(/,\s*/)`: a separator is a comma together with the
whitespace that follows it (greedy); modelled like the bullet split. -/
def splitCommaWSChars (cs : List Char) : List (List Char) :=
  match splitOnChar ',' cs with
  | [] => []
  | s :: rest => s :: rest.map (List.dropWhile Char.isWhitespace)

/-- String wrapper: split on newline characters.  The source splits with
the regex `/\n+/` and immediately filters out blank segments; splitting on
single newlines yields the same list after that filter, since the extra
segments produced between adjacent newlines are empty. -/
def jsSplitNewlines (s : String) : List String :=
  (splitOnChar '\n' s.toList).map List.asString

/-- String wrapper for the comma-or-"and" split. -/
def jsSplitCommaAnd (s : String) : List String :=
  (splitCommaAndChars s.toList).map List.asString

/-- String wrapper for the bullet split. -/
def jsSplitBullets (s : String) : List String :=
  (splitBulletsChars s.toList).map List.asString

/-- String wrapper for the comma-plus-whitespace split. -/
def jsSplitCommaWS (s : String) : List String :=
  (splitCommaWSChars s.toList).map List.asString

/-- Index of the first occurrence of a character (length when absent),
modelling JS `indexOf` under a containment guard. -/
def firstIdx (cs : List Char) (c : Char) : Nat :=
  cs.findIdx (· == c)

/-- Index of the last occurrence of a character, modelling JS
`lastIndexOf` under a containment guard. -/
def lastIdx (cs : List Char) (c : Char) : Nat :=
  cs.length - 1 - cs.reverse.findIdx (· == c)

/-- JS `String.prototype.substring(a, b)`: swaps the endpoints when they
are out of order, and clamps to the string length. -/
def jsSubstring (cs : List Char) (a b : Nat) : List Char :=
  (cs.take (max a b)).drop (min a b)

/-- The defensive slice extraction shared by the resolver paths: when the
text contains both delimiters, take the substring from the first opening
delimiter to one past the last closing delimiter; otherwise use the raw
text.  Instantiated with braces for objects and square brackets for
arrays. -/
def extractSlice (openC closeC : Char) (s : String) : String :=
  let cs := s.toList
  if cs.contains openC && cs.contains closeC then
    (jsSubstring cs (firstIdx cs openC) (lastIdx cs closeC + 1)).asString
  else s

/-- Object extraction: first to last curly brace. -/
def extractBraces (s : String) : String :=
  extractSlice '\x7b' '\x7d' s

/-- Array extraction: first to last square bracket. -/
def extractBrackets (s : String) : String :=
  extractSlice '[' ']' s

/-! ### `src/app/page.tsx` — input parsing -/

/-- One parsed colour phrase with its optional category
(`interface ParsedColor`). -/
structure ParsedColor where
  color : String
  category : Option String
deriving Repr, DecidableEq

/-- Split a line segment on commas or the literal word "and", trim each
piece and drop empties — the chain
`.split(/,|and/).map(s => s.trim()).filter(s => s !== "")`. -/
def lineColors (s : String) : List String :=
  ((jsSplitCommaAnd s).map jsTrim).filter (fun c => c != "")

/-- The body of the per-line loop of `parseStructuredColorInput`: given
the current carried category and one line, produce the updated category
and the `ParsedColor`s contributed by the line.  A line containing a
colon makes the text before the first colon the new current category and
tags the colours after the colon with it; any other line keeps the
carried category.  (The `if (color)` guard in the source is redundant
after the `filter`, since every kept string is non-empty and hence
truthy.) -/
def processLine (currentCategory : Option String) (line : String) :
    Option String × List ParsedColor :=
  let trimmedLine := jsTrim line
  if trimmedLine.toList.contains ':' then
    let parts := (splitOnChar ':' trimmedLine.toList).map List.asString
    let category := jsTrim (parts.headD "")
    let rest := String.intercalate ":" parts.tail
    (some category, (lineColors rest).map fun c => ⟨c, some category⟩)
  else
    (currentCategory, (lineColors trimmedLine).map fun c => ⟨c, currentCategory⟩)

/-- The per-line loop of `parseStructuredColorInput`, threading the
mutable `currentCategory` through the lines. -/
def processLines (currentCategory : Option String) :
    List String → List ParsedColor
  | [] => []
  | l :: ls =>
    let step := processLine currentCategory l
    step.2 ++ processLines step.1 ls

/-- Candidate list of the newline strategy:
`input.split(/\n+/).filter(line => line.trim() !== "")`. -/
def nlItems (input : String) : List String :=
  (jsSplitNewlines input).filter (fun l => jsTrim l != "")

/-- Candidate list of the bullet strategy. -/
def bulletItems (input : String) : List String :=
  (jsSplitBullets input).filter (fun l => jsTrim l != "")

/-- Candidate list of the comma strategy. -/
def commaItems (input : String) : List String :=
  (jsSplitCommaWS input).filter (fun l => jsTrim l != "")

/-- `parseMultipleColors` from `src/app/page.tsx`: split on newlines, then
(if that yielded at most one non-blank item) on bullet markers, then on
commas; if everything yielded at most one item return it, or the raw
input when even that is empty. -/
def parseMultipleColors (input : String) : List String :=
  let colors1 := nlItems input
  let colors2 := if colors1.length ≤ 1 then bulletItems input else colors1
  let colors3 := if colors2.length ≤ 1 then commaItems input else colors2
  if colors3.length ≥ 1 then colors3 else [input]

/-- `parseStructuredColorInput` from `src/app/page.tsx`: with at most one
non-blank line, fall back to `parseMultipleColors` (uncategorised);
otherwise run the per-line category loop, falling back again when it
produced nothing. -/
def parseStructuredColorInput (input : String) : List ParsedColor :=
  let lines := nlItems input
  if lines.length ≤ 1 then
    (parseMultipleColors input).map fun c => ⟨c, none⟩
  else
    let results := processLines none lines
    if results.length = 0 then
      (parseMultipleColors input).map fun c => ⟨c, none⟩
    else results

/-! ### `src/lib/googleai.ts` — resolvers -/

/-- Outcome of one `ai.models.generateContent` call: either the call
throws, or it returns a response whose `.text` is an optional string. -/
inductive GenResult where
  | ok (text : Option String)
  | err (msg : String)

/-- The generation-service behaviour one resolver invocation observes:
the outcome of its validation call and of its main call. -/
structure GenBehavior where
  valGen : GenResult
  mainGen : GenResult

/-- The verdict object built by `validateColorQuery`; the fields hold the
raw `valid` and `reason` properties of whatever JSON the service
returned. -/
structure Verdict where
  valid : Json
  reason : Json

/-- Error message of the missing-credential check. -/
def apiKeyErrorMsg : String :=
  "Google AI API key not found in environment variables"

/-- Error message for an unparsable generation response. -/
def parseErrorMsg : String := "Invalid response format from AI"

/-- Error message for an empty generation response. -/
def emptyErrorMsg : String := "Empty response from AI"

/-- The in-band error message the prompt asks the service to use. -/
def notAColorMsg : String := "Not a valid color description"

/-- Rejection message of `getColorFromText` for a query the validator
judged not colour-related. -/
def validationRejectSingleMsg (reason : Json) : String :=
  "This doesn\x27t seem to be about colors: " ++ jsString reason ++
    ". Please describe a color like \"forest green\" or \"warm sunset orange\"."

/-- Rejection message of `getColorSuggestions` for a query the validator
judged not colour-related. -/
def validationRejectSuggestMsg (reason : Json) : String :=
  "This doesn\x27t seem to be about colors: " ++ jsString reason ++
    ". Try asking for color suggestions for a specific purpose like \"colors for a beach-themed bedroom\" or \"professional outfit colors\"."

/-- `validateColorQuery` from `src/lib/googleai.ts`.  `jp` models
`JSON.parse` (`none` = the parse throws).  The whole body is wrapped in
`try/catch`, the catch returning the fallback verdict; a failing call, a
failed parse, and a parse result of `null` (whose `.valid` read throws a
TypeError) all land there. -/
def validateColorQuery (jp : String → Option Json) (g : GenResult) : Verdict :=
  match g with
  | .err _ => ⟨.bool false, .str "Error processing validation"⟩
  | .ok text =>
    let responseText := text.getD ""
    let jsonText := extractBraces responseText
    match jp jsonText with
    | none => ⟨.bool false, .str "Error processing validation"⟩
    | some result =>
      if jsNullish result then ⟨.bool false, .str "Error processing validation"⟩
      else ⟨result.get "valid", result.get "reason"⟩

/-- `getColorFromText` from `src/lib/googleai.ts`.  The result is the
promise outcome: `Except.error` is a rejection carrying the thrown
`Error`'s message (the outer catch just re-throws).  The success value is
the raw parsed JSON: the source's `return parsedResponse as ColorResponse`
is only a type-level cast, so the runtime value keeps every key the
service produced (callers spread them all).  In the inner `try/catch`, a
parse failure, a parse result of `null` (property read throws), and a
truthy in-band `error` property whose coerced message differs from
`notAColorMsg` all surface as `parseErrorMsg`; only the exact message
`notAColorMsg` is re-thrown unchanged. -/
def getColorFromText (apiKey : Option String) (jp : String → Option Json)
    (beh : String → GenBehavior) (colorDescription : String) :
    Except String Json :=
  match apiKey with
  | none => .error apiKeyErrorMsg
  | some _ =>
    let validation := validateColorQuery jp (beh colorDescription).valGen
    if !jsTruthy validation.valid then
      .error (validationRejectSingleMsg validation.reason)
    else
      match (beh colorDescription).mainGen with
      | .err m => .error m
      | .ok text =>
        let responseText := text.getD ""
        if responseText == "" then .error emptyErrorMsg
        else
          match jp (extractBraces responseText) with
          | none => .error parseErrorMsg
          | some parsedResponse =>
            if jsNullish parsedResponse then .error parseErrorMsg
            else if jsTruthy (parsedResponse.get "error") then
              let m := jsString (parsedResponse.get "error")
              if m == notAColorMsg then .error m else .error parseErrorMsg
            else
              .ok parsedResponse

/-- `interface ColorResult`: per-item outcome in a batch. -/
structure ColorResult where
  originalInput : Json
  colorName : Json
  hexCode : Json
  description : Json
  category : Json
  error : Option String

/-- The `batch.map` callback of `getMultipleColorsFromText`: a resolved
item builds `{ originalInput: description, ...result, error: null }` — a
later spread key overrides an earlier literal key, so a parsed response
carrying its own `originalInput` key replaces the input description,
while the trailing `error: null` overrides any (necessarily falsy)
`error` key the spread contributed; the remaining `ColorResult` fields
read straight from the spread (`undefined` when the response omitted
them).  A rejected item is caught and converted to a placeholder result
carrying the error message. -/
def resolveItem (apiKey : Option String) (jp : String → Option Json)
    (beh : String → GenBehavior) (description : String) : ColorResult :=
  match getColorFromText apiKey jp beh description with
  | .ok result =>
    ⟨(if result.hasKey "originalInput" then result.get "originalInput"
        else .str description),
      result.get "colorName", result.get "hexCode", result.get "description",
      result.get "category", none⟩
  | .error e =>
    ⟨.str description, .str "", .str "", .str "", .undefined, some e⟩

/-- The batch loop of `getMultipleColorsFromText`: slices of `batchSize`
5 are processed in turn and their results appended in order.  (The
100 ms inter-batch pause has no observable effect on the value.) -/
def processBatches (f : String → ColorResult) : List String → List ColorResult
  | [] => []
  | l :: ls =>
    ((l :: ls).take 5).map f ++ processBatches f ((l :: ls).drop 5)
termination_by l => l.length
decreasing_by
  simp only [List.drop_succ_cons, List.length_drop, List.length_cons]
  omega

/-- `getMultipleColorsFromText` from `src/lib/googleai.ts`. -/
def getMultipleColorsFromText (apiKey : Option String)
    (jp : String → Option Json) (beh : String → GenBehavior)
    (colorDescriptions : List String) : List ColorResult :=
  processBatches (resolveItem apiKey jp beh) colorDescriptions

/-- The `.map` callback of `getColorSuggestions`: `originalInput` is set
to the suggestion's own `colorName`, `category` defaults to
"Suggested Colors" when the suggestion's `category` is falsy, and
`error` is `null`. -/
def suggestionToResult (suggestion : Json) : ColorResult :=
  ⟨suggestion.get "colorName", suggestion.get "colorName",
    suggestion.get "hexCode", suggestion.get "description",
    (if jsTruthy (suggestion.get "category") then suggestion.get "category"
     else .str "Suggested Colors"),
    none⟩

/-- `getColorSuggestions` from `src/lib/googleai.ts`.  Extraction uses
square brackets.  When the parsed value is not an array (including
`null`), calling `.map` on it throws a TypeError inside the inner `try`,
which the catch surfaces as `parseErrorMsg`; likewise a `null` element
makes the callback's property read throw. -/
def getColorSuggestions (apiKey : Option String) (jp : String → Option Json)
    (beh : String → GenBehavior) (query : String) :
    Except String (List ColorResult) :=
  match apiKey with
  | none => .error apiKeyErrorMsg
  | some _ =>
    let validation := validateColorQuery jp (beh query).valGen
    if !jsTruthy validation.valid then
      .error (validationRejectSuggestMsg validation.reason)
    else
      match (beh query).mainGen with
      | .err m => .error m
      | .ok text =>
        let responseText := text.getD ""
        if responseText == "" then .error emptyErrorMsg
        else
          match jp (extractBrackets responseText) with
          | some (.arr colorSuggestions) =>
            if colorSuggestions.any jsNullish then .error parseErrorMsg
            else .ok (colorSuggestions.map suggestionToResult)
          | _ => .error parseErrorMsg

/-! ### `src/app/api/color/route.ts` — the HTTP boundary -/

/-- The destructured request body `{ colorDescription, colorDescriptions,
suggestionQuery }`; an absent key reads as `undefined`. -/
structure RequestBody where
  colorDescription : Json
  colorDescriptions : Json
  suggestionQuery : Json

/-- The JSON payload of a `NextResponse.json` reply. -/
inductive ApiBody where
  | errorMsg (msg : String)
  | results (rs : List ColorResult)
  | single (colorInfo : Json)

/-- A reply of the route handler: payload plus HTTP status
(`NextResponse.json` defaults to 200). -/
structure ApiResponse where
  body : ApiBody
  status : Nat

/-- `POST` from `src/app/api/color/route.ts` (the edition with the
suggestion branch).  `colorDescriptions && Array.isArray(...)` is
equivalent to the value being an array, every array being truthy.
Rejections from the resolvers are caught and surfaced with status 500.
Non-string field values are coerced with `jsString` where the source
passes them into string positions; query strings only reach the oracle,
so this does not affect any modelled observable. -/
def POST (apiKey : Option String) (jp : String → Option Json)
    (beh : String → GenBehavior) (body : RequestBody) : ApiResponse :=
  if jsTruthy body.suggestionQuery then
    match getColorSuggestions apiKey jp beh (jsString body.suggestionQuery) with
    | .ok suggestions => ⟨.results suggestions, 200⟩
    | .error m => ⟨.errorMsg m, 500⟩
  else
    match body.colorDescriptions with
    | .arr elems =>
      if elems.length = 0 then
        ⟨.errorMsg "No color descriptions provided", 400⟩
      else
        ⟨.results (getMultipleColorsFromText apiKey jp beh (elems.map jsString)),
          200⟩
    | _ =>
      if jsTruthy body.colorDescription then
        match getColorFromText apiKey jp beh (jsString body.colorDescription) with
        | .ok colorInfo => ⟨.single colorInfo, 200⟩
        | .error m => ⟨.errorMsg m, 500⟩
      else
        ⟨.errorMsg "Either color description or suggestion query is required",
          400⟩

/-! ### Concrete test fixtures

Concrete `JSON.parse` oracles and generation behaviours used by the
witness and counterexample theorems.  `jpTable` interprets a finite
table as a parse function: strings outside the table fail to parse. -/

/-- A finite `JSON.parse` model: listed strings parse to the paired
value, everything else throws. -/
def jpTable (table : List (String × Json)) : String → Option Json :=
  fun s => (table.find? (fun p => p.1 == s)).map (·.2)

/-- A validation response approving the query. -/
def validTrueResp : String := "\x7b\"valid\": true\x7d"

/-- Parse of `validTrueResp`. -/
def validTrueJson : Json := .obj [("valid", .bool true)]

/-- A validation response rejecting the query with a reason. -/
def invalidResp : String :=
  "\x7b\"valid\": false, \"reason\": \"no colors mentioned\"\x7d"

/-- Parse of `invalidResp`. -/
def invalidJson : Json :=
  .obj [("valid", .bool false), ("reason", .str "no colors mentioned")]

/-- The prose-wrapped generation response from the spec's test
properties. -/
def proseResp : String :=
  "Here is the answer:\n\x7b\"colorName\":\"Red\",\"hexCode\":\"#FF0000\",\"description\":\"pure red\"\x7d\nHope that helps!"

/-- The brace-delimited slice of `proseResp`. -/
def proseInner : String :=
  "\x7b\"colorName\":\"Red\",\"hexCode\":\"#FF0000\",\"description\":\"pure red\"\x7d"

/-- Parse of `proseInner`. -/
def proseJson : Json :=
  .obj [("colorName", .str "Red"), ("hexCode", .str "#FF0000"),
    ("description", .str "pure red")]

/-- Parse oracle recognising the validation response and the prose-wrapped
colour object. -/
def jpProse : String → Option Json :=
  jpTable [(validTrueResp, validTrueJson), (proseInner, proseJson)]

/-- Generation behaviour: validation approves, the main call returns the
prose-wrapped object. -/
def behProse : String → GenBehavior :=
  fun _ => ⟨.ok (some validTrueResp), .ok (some proseResp)⟩

/-- Parse oracle recognising only the rejecting validation response. -/
def jpInvalid : String → Option Json := jpTable [(invalidResp, invalidJson)]

/-- Generation behaviour whose validation call rejects the query. -/
def behInvalid : String → GenBehavior :=
  fun _ => ⟨.ok (some invalidResp), .ok (some "[]")⟩

/-- A generation response carrying an in-band error with a message other
than `notAColorMsg`. -/
def inbandResp : String :=
  "\x7b\"error\": \"Please provide a color description\"\x7d"

/-- Parse of `inbandResp`. -/
def inbandJson : Json := .obj [("error", .str "Please provide a color description")]

/-- Parse oracle recognising the approving validation response and the
in-band error object. -/
def jpInband : String → Option Json :=
  jpTable [(validTrueResp, validTrueJson), (inbandResp, inbandJson)]

/-- Generation behaviour: validation approves, the main call returns the
in-band error object. -/
def behInband : String → GenBehavior :=
  fun _ => ⟨.ok (some validTrueResp), .ok (some inbandResp)⟩

/-- A suggestion-array generation response. -/
def suggResp : String :=
  "[\x7b\"colorName\":\"Sky Blue\",\"hexCode\":\"#87CEEB\",\"description\":\"light blue\"\x7d]"

/-- Parse of `suggResp`. -/
def suggJson : Json :=
  .arr [.obj [("colorName", .str "Sky Blue"), ("hexCode", .str "#87CEEB"),
    ("description", .str "light blue")]]

/-- Parse oracle recognising the approving validation response and the
suggestion array. -/
def jpSuggest : String → Option Json :=
  jpTable [(validTrueResp, validTrueJson), (suggResp, suggJson)]

/-- Generation behaviour: validation approves, the main call returns the
suggestion array. -/
def behSuggest : String → GenBehavior :=
  fun _ => ⟨.ok (some validTrueResp), .ok (some suggResp)⟩

/-- Generation behaviour for batch tests: the description "bad" fails its
main call with "boom", every other description resolves through the
prose-wrapped object. -/
def behBatch : String → GenBehavior :=
  fun d =>
    if d == "bad" then ⟨.ok (some validTrueResp), .err "boom"⟩
    else ⟨.ok (some validTrueResp), .ok (some proseResp)⟩

/-- A generation response whose object carries its own `originalInput`
key alongside the colour fields. -/
def hijackResp : String :=
  "\x7b\"colorName\":\"Red\",\"originalInput\":\"hijacked\"\x7d"

/-- Parse of `hijackResp`. -/
def hijackJson : Json :=
  .obj [("colorName", .str "Red"), ("originalInput", .str "hijacked")]

/-- Parse oracle recognising the approving validation response and the
`originalInput`-carrying object. -/
def jpHijack : String → Option Json :=
  jpTable [(validTrueResp, validTrueJson), (hijackResp, hijackJson)]

/-- Generation behaviour: validation approves, the main call returns the
`originalInput`-carrying object. -/
def behHijack : String → GenBehavior :=
  fun _ => ⟨.ok (some validTrueResp), .ok (some hijackResp)⟩

/-! ## Theorems -/

/-- The batch loop visits slices of five in order, so it is the plain map
over the whole input list. -/
theorem processBatches_eq_map (f : String → ColorResult) :
    ∀ (n : Nat) (l : List String), l.length ≤ n → processBatches f l = l.map f := by
  intro n
  induction n with
  | zero =>
    intro l h
    cases l with
    | nil => simp [processBatches]
    | cons x xs => simp at h
  | succ n ih =>
    intro l h
    cases l with
    | nil => simp [processBatches]
    | cons x xs =>
      rw [processBatches, ih ((x :: xs).drop 5)
        (by simp only [List.length_drop, List.length_cons] at h ⊢; omega),
        List.map_take, List.map_drop, List.take_append_drop]

/-- `getMultipleColorsFromText` equals the map of the per-item resolver
over the inputs. -/
theorem getMultipleColors_eq_map (apiKey : Option String)
    (jp : String → Option Json) (beh : String → GenBehavior)
    (inputs : List String) :
    getMultipleColorsFromText apiKey jp beh inputs =
      inputs.map (resolveItem apiKey jp beh) :=
  processBatches_eq_map _ inputs.length inputs (Nat.le_refl _)

/-- C1 counterexample: a generation response whose parsed object carries
its own `originalInput` key overrides the input description through the
object spread `{ originalInput: description, ...result, error: null }`,
so the successful item at index 0 reports `originalInput` "hijacked"
instead of the input "ruby red" — the claim's for-every-response
`originalInput = input i` conjunct fails. -/
theorem batch_originalInput_override_counterexample :
    getMultipleColorsFromText (some "key") jpHijack behHijack ["ruby red"] =
      [⟨.str "hijacked", .str "Red", .undefined, .undefined, .undefined,
        none⟩] ∧
    Json.str "hijacked" ≠ Json.str "ruby red" := by
  constructor
  · rw [getMultipleColors_eq_map]
    rfl
  · simp

/-- C1 (amended): for every input list (and every credential state, parse
oracle and generation behaviour), `getMultipleColorsFromText` returns
exactly one `ColorResult` per input in the same order — it is the map of
the per-item resolver, its length matches, and result `i` is built from
input `i` alone, so no item's outcome influences any other item or any
later batch.  A failing item yields `originalInput = input i`, `error`
set, and empty placeholder name/hex/description fields.  A succeeding
item yields `error = none` and the parsed response's own fields, and its
`originalInput` equals input `i` provided the parsed response does not
itself carry an `originalInput` key — the object spread lets such a key
override the input description. -/
theorem getMultipleColors_per_item_isolation (apiKey : Option String)
    (jp : String → Option Json) (beh : String → GenBehavior)
    (inputs : List String) :
    getMultipleColorsFromText apiKey jp beh inputs =
      inputs.map (resolveItem apiKey jp beh) ∧
    (getMultipleColorsFromText apiKey jp beh inputs).length = inputs.length ∧
    (∀ (i : Nat), i < inputs.length →
      (getMultipleColorsFromText apiKey jp beh inputs)[i]? =
        (inputs[i]?.map (resolveItem apiKey jp beh))) ∧
    (∀ d m, getColorFromText apiKey jp beh d = .error m →
      resolveItem apiKey jp beh d =
        ⟨.str d, .str "", .str "", .str "", .undefined, some m⟩) ∧
    (∀ d j, getColorFromText apiKey jp beh d = .ok j →
      resolveItem apiKey jp beh d =
        ⟨(if j.hasKey "originalInput" then j.get "originalInput"
            else .str d),
          j.get "colorName", j.get "hexCode", j.get "description",
          j.get "category", none⟩) ∧
    (∀ d j, getColorFromText apiKey jp beh d = .ok j →
      j.hasKey "originalInput" = false →
      (resolveItem apiKey jp beh d).originalInput = .str d) := by
  refine ⟨getMultipleColors_eq_map .., ?_, ?_, ?_, ?_, ?_⟩
  · rw [getMultipleColors_eq_map]; simp
  · intro i hi
    rw [getMultipleColors_eq_map]
    simp [List.getElem?_map]
  · intro d m h
    simp [resolveItem, h]
  · intro d j h
    simp [resolveItem, h]
  · intro d j h hk
    simp [resolveItem, h, hk]

/-- Witness for C1 (amended) at a concrete two-item batch in which the
second item's main generation call fails: the failing item is isolated
into a placeholder result, the succeeding item resolves (its response has
no `originalInput` key, so the input description survives), and the
output pairs up with the inputs in order. -/
theorem getMultipleColors_per_item_isolation_witness :
    getColorFromText (some "key") jpProse behBatch "bad" = .error "boom" ∧
    resolveItem (some "key") jpProse behBatch "bad" =
      ⟨.str "bad", .str "", .str "", .str "", .undefined, some "boom"⟩ ∧
    getColorFromText (some "key") jpProse behBatch "crimson" =
      .ok proseJson ∧
    resolveItem (some "key") jpProse behBatch "crimson" =
      ⟨.str "crimson", .str "Red", .str "#FF0000", .str "pure red", .undefined,
        none⟩ ∧
    (resolveItem (some "key") jpProse behBatch "crimson").originalInput =
      .str "crimson" ∧
    (getMultipleColorsFromText (some "key") jpProse behBatch
        ["crimson", "bad"])[1]? =
      (["crimson", "bad"][1]?.map (resolveItem (some "key") jpProse behBatch)) := by
  refine ⟨by rfl, ?_, by rfl, ?_, ?_, ?_⟩
  · exact (getMultipleColors_per_item_isolation (some "key") jpProse behBatch
      ["crimson", "bad"]).2.2.2.1 "bad" "boom" (by rfl)
  · exact (getMultipleColors_per_item_isolation (some "key") jpProse behBatch
      ["crimson", "bad"]).2.2.2.2.1 "crimson" proseJson (by rfl)
  · exact (getMultipleColors_per_item_isolation (some "key") jpProse behBatch
      ["crimson", "bad"]).2.2.2.2.2 "crimson" proseJson (by rfl) (by rfl)
  · exact (getMultipleColors_per_item_isolation (some "key") jpProse behBatch
      ["crimson", "bad"]).2.2.1 1 (by decide)

/-- C5: in the multi-line parser, a line containing a colon makes the
trimmed text before the first colon the category of every phrase after
the colon on that line (and the new carried category), a line without a
colon tags its phrases with the carried category unchanged, and on the
concrete input the three phrases "navy", "sky blue" and "teal" all carry
the category "Blues". -/
theorem parser_category_carry_over :
    (∀ (cat : Option String) (line : String),
      ':' ∉ (jsTrim line).toList →
      (processLine cat line).1 = cat ∧
        ∀ p ∈ (processLine cat line).2, p.category = cat) ∧
    (∀ (cat : Option String) (line : String),
      ':' ∈ (jsTrim line).toList →
      (processLine cat line).1 =
          some (jsTrim
            (((splitOnChar ':' (jsTrim line).toList).map List.asString).headD "")) ∧
        ∀ p ∈ (processLine cat line).2,
          p.category =
            some (jsTrim
              (((splitOnChar ':' (jsTrim line).toList).map List.asString).headD ""))) ∧
    parseStructuredColorInput "Blues:\nnavy, sky blue\nteal" =
      [⟨"navy", some "Blues"⟩, ⟨"sky blue", some "Blues"⟩,
        ⟨"teal", some "Blues"⟩] := by
  refine ⟨?_, ?_, by decide⟩
  · intro cat line h
    simp only [processLine]
    rw [if_neg (by simpa using h)]
    refine ⟨rfl, ?_⟩
    intro p hp
    simp only [List.mem_map] at hp
    obtain ⟨c, _, rfl⟩ := hp
    rfl
  · intro cat line h
    simp only [processLine]
    rw [if_pos (by simpa using h)]
    refine ⟨rfl, ?_⟩
    intro p hp
    simp only [List.mem_map] at hp
    obtain ⟨c, _, rfl⟩ := hp
    rfl

/-- Witness for C5: an uncategorised line following a "Blues:" header
keeps the carried category "Blues", and a colon line installs its own
category. -/
theorem parser_category_carry_over_witness :
    ((processLine (some "Blues") "teal").1 = some "Blues" ∧
      ∀ p ∈ (processLine (some "Blues") "teal").2,
        p.category = some "Blues") ∧
    ((processLine none "Blues: navy").1 =
        some (jsTrim
          (((splitOnChar ':' (jsTrim "Blues: navy").toList).map List.asString).headD "")) ∧
      ∀ p ∈ (processLine none "Blues: navy").2,
        p.category =
          some (jsTrim
            (((splitOnChar ':' (jsTrim "Blues: navy").toList).map List.asString).headD ""))) :=
  ⟨parser_category_carry_over.1 (some "Blues") "teal" (by decide),
    parser_category_carry_over.2.1 none "Blues: navy" (by decide)⟩

/-- C6: `parseMultipleColors` tries newline splitting, then bullet
splitting, then comma splitting, in that order, using the first strategy
whose (non-blank-filtered) result has at least two items; "* red * blue"
therefore splits on bullets into the two queries "red " and "blue", and
the flat input "red" parses to the single uncategorised query "red". -/
theorem parser_fallback_order :
    (∀ input : String,
      (2 ≤ (nlItems input).length →
        parseMultipleColors input = nlItems input) ∧
      ((nlItems input).length ≤ 1 → 2 ≤ (bulletItems input).length →
        parseMultipleColors input = bulletItems input) ∧
      ((nlItems input).length ≤ 1 → (bulletItems input).length ≤ 1 →
        2 ≤ (commaItems input).length →
        parseMultipleColors input = commaItems input)) ∧
    parseMultipleColors "* red * blue" = ["red ", "blue"] ∧
    parseStructuredColorInput "red" = [⟨"red", none⟩] := by
  refine ⟨?_, by decide, by decide⟩
  intro input
  refine ⟨?_, ?_, ?_⟩
  · intro h2
    simp [parseMultipleColors, show ¬ (nlItems input).length ≤ 1 by omega,
      show 1 ≤ (nlItems input).length by omega]
  · intro h1 h2
    simp [parseMultipleColors, h1,
      show ¬ (bulletItems input).length ≤ 1 by omega,
      show 1 ≤ (bulletItems input).length by omega]
  · intro h1 h2 h3
    simp [parseMultipleColors, h1, h2,
      show 1 ≤ (commaItems input).length by omega]

/-- Witness for C6: the single-line input "* red * blue" has one newline
item and two bullet items, so the bullet strategy is chosen. -/
theorem parser_fallback_order_witness :
    parseMultipleColors "* red * blue" = bulletItems "* red * blue" :=
  (parser_fallback_order.1 "* red * blue").2.1 (by decide) (by decide)

/-- C2: with the credential present, a passing validation verdict, and a
non-empty main generation text `t`: the parse oracle is consulted exactly
on the brace slice of `t` — a failed parse surfaces as the typed error
"Invalid response format from AI", a successful non-error parse is
returned (never a crash: the embedding is total); when `t` lacks an
opening or closing brace the raw text is the parsed slice; and when the
first opening brace precedes the last closing brace the slice is exactly
the substring from the first brace to the last brace. -/
theorem getColorFromText_json_extraction (jp : String → Option Json)
    (beh : String → GenBehavior) (k d t : String)
    (hval : jsTruthy (validateColorQuery jp (beh d).valGen).valid = true)
    (hmain : (beh d).mainGen = .ok (some t)) (hne : t ≠ "") :
    (jp (extractBraces t) = none →
      getColorFromText (some k) jp beh d = .error parseErrorMsg) ∧
    (∀ j, jp (extractBraces t) = some j → jsNullish j = false →
      jsTruthy (j.get "error") = false →
      getColorFromText (some k) jp beh d = .ok j) ∧
    ((t.toList.contains '\x7b' = false ∨ t.toList.contains '\x7d' = false) →
      extractBraces t = t) ∧
    (t.toList.contains '\x7b' = true → t.toList.contains '\x7d' = true →
      firstIdx t.toList '\x7b' ≤ lastIdx t.toList '\x7d' →
      extractBraces t =
        ((t.toList.take (lastIdx t.toList '\x7d' + 1)).drop
          (firstIdx t.toList '\x7b')).asString) := by
  refine ⟨?_, ?_, ?_, ?_⟩
  · intro h
    simp [getColorFromText, hval, hmain, hne, h]
  · intro j hj hnull herr
    simp [getColorFromText, hval, hmain, hne, hj, hnull, herr]
  · intro h
    unfold extractBraces extractSlice
    rcases h with h | h <;> simp at h <;> simp [h]
  · intro hb hc hle
    unfold extractBraces extractSlice
    rw [if_pos (by rw [hb, hc]; rfl)]
    unfold jsSubstring
    rw [Nat.min_eq_left (by omega), Nat.max_eq_right (by omega)]

/-- Witness for C2 at the spec prose-wrapped response: the embedded
object is extracted and parsed, and the resolver succeeds. -/
theorem getColorFromText_json_extraction_witness :
    getColorFromText (some "key") jpProse behProse "crimson" =
      .ok proseJson ∧
    extractBraces proseResp = proseInner := by
  refine ⟨?_, by decide⟩
  exact (getColorFromText_json_extraction jpProse behProse "key" "crimson"
    proseResp (by rfl) (by rfl) (by decide)).2.1 proseJson (by rfl) (by rfl)
    (by rfl)

/-- C3 counterexample: with the credential absent, the batch entry point
does not fail with the configuration error — it resolves normally to a
per-item list whose entries carry the configuration message in their
`error` field, while the single-lookup entry point rejects outright; the
two entry points therefore do not fail identically. -/
theorem missing_key_batch_counterexample :
    getMultipleColorsFromText none (fun _ => none)
        (fun _ => ⟨.err "net", .err "net"⟩) ["red"] =
      [⟨.str "red", .str "", .str "", .str "", .undefined, some apiKeyErrorMsg⟩] ∧
    getColorFromText none (fun _ => none)
        (fun _ => ⟨.err "net", .err "net"⟩) "red" = .error apiKeyErrorMsg := by
  constructor
  · rw [getMultipleColors_eq_map]
    rfl
  · rfl

/-- C3 (amended): with the credential absent, single lookup and palette
suggestion fail immediately with the configuration error, and batch
lookup — whose per-item catch swallows the throw — resolves to one result
per input, each carrying the configuration error, all independently of
the generation oracle (so before any generation call could matter). -/
theorem missing_key_behavior (jp : String → Option Json)
    (beh : String → GenBehavior) (d q : String) (inputs : List String) :
    getColorFromText none jp beh d = .error apiKeyErrorMsg ∧
    getColorSuggestions none jp beh q = .error apiKeyErrorMsg ∧
    getMultipleColorsFromText none jp beh inputs =
      inputs.map (fun d2 =>
        ⟨.str d2, .str "", .str "", .str "", .undefined, some apiKeyErrorMsg⟩) := by
  refine ⟨rfl, rfl, ?_⟩
  rw [getMultipleColors_eq_map]
  exact List.map_congr_left fun d2 _ => rfl

/-- C4 counterexample: at a concrete query the validator judges invalid,
`getColorSuggestions` rejects the request outright with a validation
error — it does not append an implied colour context and proceed. -/
theorem suggestions_reject_invalid_counterexample :
    getColorSuggestions (some "key") jpInvalid behInvalid "help me with taxes" =
      .error (validationRejectSuggestMsg (.str "no colors mentioned")) ∧
    validationRejectSuggestMsg (.str "no colors mentioned") =
      "This doesn\x27t seem to be about colors: no colors mentioned. Try asking for color suggestions for a specific purpose like \"colors for a beach-themed bedroom\" or \"professional outfit colors\"." :=
  ⟨by rfl, by rfl⟩

/-- C4 (amended): for every query the validator judges invalid,
`getColorSuggestions` rejects outright by throwing a validation error
that embeds the validator reason — the same hard rejection policy as
single-colour resolution, not a softer append-and-continue policy. -/
theorem suggestions_invalid_query_rejected (jp : String → Option Json)
    (beh : String → GenBehavior) (k q : String)
    (hval : jsTruthy (validateColorQuery jp (beh q).valGen).valid = false) :
    getColorSuggestions (some k) jp beh q =
      .error (validationRejectSuggestMsg
        (validateColorQuery jp (beh q).valGen).reason) := by
  simp [getColorSuggestions, hval]

/-- Witness for C4 (amended) at the concrete rejected query. -/
theorem suggestions_invalid_query_rejected_witness :
    getColorSuggestions (some "key") jpInvalid behInvalid "help me with taxes" =
      .error (validationRejectSuggestMsg
        (validateColorQuery jpInvalid
          (behInvalid "help me with taxes").valGen).reason) :=
  suggestions_invalid_query_rejected jpInvalid behInvalid "key"
    "help me with taxes" (by rfl)

/-- C7: `validateColorQuery` never propagates a failure: a failing
generation call, a response whose brace slice the parse oracle rejects,
and a response parsing to `null` (whose property read throws inside the
`try`) all return the fallback verdict — `valid` false together with the
fallback reason — instead of raising (the embedding returns a plain
`Verdict`, mirroring that every path of the source returns). -/
theorem validateColorQuery_failure_fallback (jp : String → Option Json) :
    (∀ m, validateColorQuery jp (.err m) =
      ⟨.bool false, .str "Error processing validation"⟩) ∧
    (∀ text, jp (extractBraces (text.getD "")) = none →
      validateColorQuery jp (.ok text) =
        ⟨.bool false, .str "Error processing validation"⟩) ∧
    (∀ text j, jp (extractBraces (text.getD "")) = some j →
      jsNullish j = true →
      validateColorQuery jp (.ok text) =
        ⟨.bool false, .str "Error processing validation"⟩) := by
  refine ⟨fun m => rfl, ?_, ?_⟩
  · intro text h
    simp [validateColorQuery, h]
  · intro text j hj hn
    simp [validateColorQuery, hj, hn]

/-- Witness for C7: a parse oracle that rejects everything (as
`JSON.parse` does on an empty or malformed response) yields the fallback
verdict for an empty text and for prose, and a failing call does too. -/
theorem validateColorQuery_failure_fallback_witness :
    validateColorQuery (fun _ => none) (.ok (some "")) =
      ⟨.bool false, .str "Error processing validation"⟩ ∧
    validateColorQuery (fun _ => none) (.ok (some "not json at all")) =
      ⟨.bool false, .str "Error processing validation"⟩ ∧
    validateColorQuery (fun _ => none) (.err "network down") =
      ⟨.bool false, .str "Error processing validation"⟩ :=
  ⟨(validateColorQuery_failure_fallback (fun _ => none)).2.1 (some "") rfl,
    (validateColorQuery_failure_fallback (fun _ => none)).2.1
      (some "not json at all") rfl,
    (validateColorQuery_failure_fallback (fun _ => none)).1 "network down"⟩

/-- C8 counterexample: a request whose `colorDescriptions` field is
present but an empty array is nevertheless processed (status 200, via the
suggestion branch) when a truthy `suggestionQuery` is also present — the
suggestion branch is checked first, so the empty array is silently
ignored rather than rejected. -/
theorem boundary_empty_array_processed_counterexample :
    POST (some "key") jpSuggest behSuggest
        ⟨.undefined, .arr [], .str "beach bedroom"⟩ =
      ⟨.results [⟨.str "Sky Blue", .str "Sky Blue", .str "#87CEEB",
        .str "light blue", .str "Suggested Colors", none⟩], 200⟩ := by
  rfl

/-- C8 (amended): the boundary rejects with a descriptive 400 error every
body containing none of the three recognised fields, and rejects a body
whose `colorDescriptions` is an empty array provided no truthy
`suggestionQuery` is present (the suggestion branch takes precedence). -/
theorem boundary_rejects (apiKey : Option String) (jp : String → Option Json)
    (beh : String → GenBehavior) :
    POST apiKey jp beh ⟨.undefined, .undefined, .undefined⟩ =
      ⟨.errorMsg "Either color description or suggestion query is required",
        400⟩ ∧
    (∀ cd sq, jsTruthy sq = false →
      POST apiKey jp beh ⟨cd, .arr [], sq⟩ =
        ⟨.errorMsg "No color descriptions provided", 400⟩) := by
  refine ⟨rfl, ?_⟩
  intro cd sq hsq
  simp [POST, hsq]

/-- Witness for C8 (amended): an empty `colorDescriptions` array without
a suggestion query is rejected even when `colorDescription` is present. -/
theorem boundary_rejects_witness :
    POST (some "key") jpSuggest behSuggest ⟨.str "red", .arr [], .undefined⟩ =
      ⟨.errorMsg "No color descriptions provided", 400⟩ :=
  (boundary_rejects (some "key") jpSuggest behSuggest).2 (.str "red") .undefined
    (by rfl)

/-- C9 counterexample: a generation response parsing to an object whose
in-band `error` message is "Please provide a color description" is
surfaced as the parse-fault message "Invalid response format from AI" —
the in-band message is not preserved, because the re-thrown error is
caught by the same catch as parse failures and reclassified (only the
exact message "Not a valid color description" escapes it). -/
theorem inband_error_reclassified_counterexample :
    getColorFromText (some "key") jpInband behInband "gibberish" =
      .error parseErrorMsg ∧
    parseErrorMsg ≠ "Please provide a color description" :=
  ⟨by rfl, by decide⟩

/-- C9 (amended): whenever the parsed generation response carries a
truthy in-band `error` property, `getColorFromText` checks it before
returning and never returns the object as a `ColorResponse`; the thrown
in-band error keeps its message only when that message is exactly
`notAColorMsg`, and is otherwise reclassified as the parse fault
`parseErrorMsg`. -/
theorem inband_error_check (jp : String → Option Json)
    (beh : String → GenBehavior) (k d t : String) (j : Json)
    (hval : jsTruthy (validateColorQuery jp (beh d).valGen).valid = true)
    (hmain : (beh d).mainGen = .ok (some t)) (hne : t ≠ "")
    (hjp : jp (extractBraces t) = some j)
    (herr : jsTruthy (j.get "error") = true) :
    getColorFromText (some k) jp beh d =
      .error (if jsString (j.get "error") == notAColorMsg then notAColorMsg
        else parseErrorMsg) ∧
    ∀ c, getColorFromText (some k) jp beh d ≠ .ok c := by
  have hnull : jsNullish j = false := by
    cases j <;> first | rfl | (exfalso; simp [Json.get, jsTruthy] at herr)
  have hmsg : getColorFromText (some k) jp beh d =
      .error (if jsString (j.get "error") == notAColorMsg then notAColorMsg
        else parseErrorMsg) := by
    cases hm : jsString (j.get "error") == notAColorMsg
    · simp [getColorFromText, hval, hmain, hne, hjp, hnull, herr, hm]
    · have hs := eq_of_beq hm
      simp [getColorFromText, hval, hmain, hne, hjp, hnull, herr, hm, hs]
  exact ⟨hmsg, fun c hc => by rw [hmsg] at hc; exact Except.noConfusion hc⟩

/-- Witness for C9 (amended) at the concrete in-band error fixture. -/
theorem inband_error_check_witness :
    getColorFromText (some "key") jpInband behInband "gibberish" =
      .error (if jsString (inbandJson.get "error") == notAColorMsg
        then notAColorMsg else parseErrorMsg) ∧
    ∀ c, getColorFromText (some "key") jpInband behInband "gibberish" ≠
      .ok c :=
  inband_error_check jpInband behInband "key" "gibberish" inbandResp
    inbandJson (by rfl) (by rfl) (by decide) (by rfl) (by rfl)

/-- C10: every element of a successful `getColorSuggestions` result has
`error = none`, `originalInput` equal to its own `colorName`, and a
truthy (hence non-empty, non-missing) `category`; and the mapping
defaults the category to "Suggested Colors" exactly when the suggestion
object's own `category` is falsy (in particular when it is omitted). -/
theorem suggestion_result_invariant (apiKey : Option String)
    (jp : String → Option Json) (beh : String → GenBehavior) (q : String)
    (rs : List ColorResult)
    (h : getColorSuggestions apiKey jp beh q = .ok rs) :
    (∀ r ∈ rs, r.error = none ∧ r.originalInput = r.colorName ∧
      jsTruthy r.category = true ∧ r.category ≠ .str "") ∧
    (∀ e : Json, jsTruthy (e.get "category") = false →
      (suggestionToResult e).category = .str "Suggested Colors") := by
  constructor
  · intro r hr
    cases apiKey with
    | none => simp [getColorSuggestions] at h
    | some key =>
      cases hval : jsTruthy (validateColorQuery jp (beh q).valGen).valid with
      | false => simp [getColorSuggestions, hval] at h
      | true =>
        cases hmain : (beh q).mainGen with
        | err m => simp [getColorSuggestions, hval, hmain] at h
        | ok text =>
          cases hemp : text.getD "" == "" with
          | true => simp [getColorSuggestions, hval, hmain, hemp] at h
          | false =>
            cases hjp : jp (extractBrackets (text.getD "")) with
            | none => simp [getColorSuggestions, hval, hmain, hemp, hjp] at h
            | some j =>
              cases j with
              | arr elems =>
                cases hn : elems.any jsNullish with
                | true =>
                  simp [getColorSuggestions, hval, hmain, hemp, hjp, hn] at h
                | false =>
                  simp [getColorSuggestions, hval, hmain, hemp, hjp, hn] at h
                  subst h
                  simp only [List.mem_map] at hr
                  obtain ⟨e, _, rfl⟩ := hr
                  refine ⟨rfl, rfl, ?_⟩
                  cases hcat : jsTruthy (e.get "category")
                  · constructor
                    · have hdef : (suggestionToResult e).category =
                          .str "Suggested Colors" := by
                        simp [suggestionToResult, hcat]
                      rw [hdef]
                      decide
                    · simp [suggestionToResult, hcat]
                  · constructor
                    · simp [suggestionToResult, hcat]
                    · intro hz
                      simp only [suggestionToResult, hcat, if_true] at hz
                      rw [hz] at hcat
                      exact absurd hcat (by decide)
              | undefined =>
                simp [getColorSuggestions, hval, hmain, hemp, hjp] at h
              | null =>
                simp [getColorSuggestions, hval, hmain, hemp, hjp] at h
              | bool b =>
                simp [getColorSuggestions, hval, hmain, hemp, hjp] at h
              | num n =>
                simp [getColorSuggestions, hval, hmain, hemp, hjp] at h
              | str second =>
                simp [getColorSuggestions, hval, hmain, hemp, hjp] at h
              | obj fields =>
                simp [getColorSuggestions, hval, hmain, hemp, hjp] at h
  · intro e he
    simp [suggestionToResult, he]

/-- Witness for C10 at the concrete suggestion fixture (whose suggestion
object omits `category`, so the default applies). -/
theorem suggestion_result_invariant_witness :
    getColorSuggestions (some "key") jpSuggest behSuggest "beach bedroom" =
      .ok [⟨.str "Sky Blue", .str "Sky Blue", .str "#87CEEB",
        .str "light blue", .str "Suggested Colors", none⟩] ∧
    ∀ r ∈ [(⟨.str "Sky Blue", .str "Sky Blue", .str "#87CEEB",
        .str "light blue", .str "Suggested Colors", none⟩ : ColorResult)],
      r.error = none ∧ r.originalInput = r.colorName ∧
        jsTruthy r.category = true ∧ r.category ≠ .str "" :=
  ⟨by rfl,
    (suggestion_result_invariant (some "key") jpSuggest behSuggest
      "beach bedroom"
      [⟨.str "Sky Blue", .str "Sky Blue", .str "#87CEEB", .str "light blue",
        .str "Suggested Colors", none⟩] (by rfl)).1⟩

end ColorSense
